import Mathlib

set_option maxRecDepth 10000

/-!
Verification of the PPM plugin (PpmImagePlugin.py) and the histogram
statistics engine (ImageStat.py).

Byte streams are modelled as lists of natural numbers (one per byte);
reading a byte from the file object consumes the head of the list.
Python floats are modelled exactly over the rationals; the only
float-valued claims checked here concern failure behaviour or exact
integer arithmetic, where rounding plays no role.
-/

deriving instance DecidableEq for Except

namespace Ppm

/-- The whitespace byte set of the plugin, source line
  b_whitespace = b"\x20\x09\x0a\x0b\x0c\x0d". -/
def b_whitespace : List Nat := [32, 9, 10, 11, 12, 13]

/-- Membership test in the whitespace set, modelling the Python test
  c in b_whitespace for a one-byte c. -/
def isWS (c : Nat) : Bool := b_whitespace.contains c

/-- Failures raised by PpmImageFile.

  eofHeader is the ValueError "Reached EOF while reading header";
  tokenTooLong is the ValueError "Token too long in file header"
  carrying the offending token bytes. -/
inductive TokErr where
  | eofHeader : TokErr
  | tokenTooLong : List Nat → TokErr
  deriving DecidableEq

/-- The checks performed after the scanning loop of
  PpmImageFile._read_token exits: an empty token raises the EOF
  ValueError, a token longer than 10 bytes raises the token-too-long
  ValueError, otherwise the token is returned together with the not yet
  consumed remainder of the stream. -/
def finishToken (token rest : List Nat) : Except TokErr (List Nat × List Nat) :=
  if token = [] then .error .eofHeader
  else if token.length > 10 then .error (.tokenTooLong token)
  else .ok (token, rest)

/-- The scanning loop of PpmImageFile._read_token.

  The Boolean flag records whether control currently sits inside the
  inner comment-discarding loop
  (while self.fp.read(1) not in b"\r\n": pass); note that in Python
  an empty read result b"" is a substring of b"\r\n", so that inner loop
  also stops at end of input.  With the flag true, one byte is consumed:
  CR or LF returns to the outer loop, anything else stays in the inner
  loop, and end of input falls through to the post-loop checks (the
  outer loop would read end of input and break at once).  With the flag
  false, the outer loop runs: it first tests len(token) <= 10, then
  reads one byte and dispatches exactly like the source: whitespace
  before any token byte is skipped, whitespace after a token byte or end
  of input breaks, a number-sign byte (35) enters the comment loop, and
  any other byte is appended to the token. -/
def readTokenAux : List Nat → Bool → List Nat → Except TokErr (List Nat × List Nat)
  | input, true, token =>
    match input with
    | [] => finishToken token []
    | c :: rest =>
      if c = 13 ∨ c = 10 then readTokenAux rest false token
      else readTokenAux rest true token
  | input, false, token =>
    if token.length > 10 then finishToken token input
    else
      match input with
      | [] => finishToken token []
      | c :: rest =>
        if isWS c ∧ token = [] then readTokenAux rest false token
        else if isWS c then finishToken token rest
        else if c = 35 then readTokenAux rest true token
        else readTokenAux rest false (token ++ [c])

/-- PpmImageFile._read_token on a stream: returns the token and the
  remaining stream, or the raised ValueError. -/
def readToken (input : List Nat) : Except TokErr (List Nat × List Nat) :=
  readTokenAux input false []

/-- Step-counting version of readTokenAux: the fuel bounds the number of
  bytes the loops may consume, and none means the bound was hit before
  the loops finished.  Used to state that the source's loops terminate
  on every finite stream. -/
def readTokenFuel : Nat → List Nat → Bool → List Nat → Option (Except TokErr (List Nat × List Nat))
  | fuel, input, true, token =>
    match input with
    | [] => some (finishToken token [])
    | c :: rest =>
      match fuel with
      | 0 => none
      | f + 1 =>
        if c = 13 ∨ c = 10 then readTokenFuel f rest false token
        else readTokenFuel f rest true token
  | fuel, input, false, token =>
    if token.length > 10 then some (finishToken token input)
    else
      match input with
      | [] => some (finishToken token [])
      | c :: rest =>
        match fuel with
        | 0 => none
        | f + 1 =>
          if isWS c ∧ token = [] then readTokenFuel f rest false token
          else if isWS c then some (finishToken token rest)
          else if c = 35 then readTokenFuel f rest true token
          else readTokenFuel f rest false (token ++ [c])

/-- PpmImageFile._read_magic: read at most 6 bytes, stopping early at
  the first whitespace byte (which is consumed) or at end of input;
  returns the accumulated magic bytes and the remaining stream. -/
def readMagicAux : Nat → List Nat → List Nat × List Nat
  | 0, input => ([], input)
  | _ + 1, [] => ([], [])
  | n + 1, c :: rest =>
    if isWS c then ([], rest)
    else
      let p := readMagicAux n rest
      (c :: p.1, p.2)

/-- PpmImageFile._read_magic reads at most 6 bytes. -/
def readMagic (input : List Nat) : List Nat × List Nat :=
  readMagicAux 6 input

/-- The MODES table of the plugin, mapping a magic byte string to the
  initial mode string.  Magic strings are spelled as their ASCII codes:
  P4, P5, P6, P0CMYK, PyP, PyRGBA, PyCMYK. -/
def MODES (magic : List Nat) : Option String :=
  if magic = [80, 52] then some "1"
  else if magic = [80, 53] then some "L"
  else if magic = [80, 54] then some "RGB"
  else if magic = [80, 48, 67, 77, 89, 75] then some "CMYK"
  else if magic = [80, 121, 80] then some "P"
  else if magic = [80, 121, 82, 71, 66, 65] then some "RGBA"
  else if magic = [80, 121, 67, 77, 89, 75] then some "CMYK"
  else none

/-- The custom_mimetype dictionary lookup in PpmImageFile._open,
  defined only for the three standard magics. -/
def customMimetype (magic : List Nat) : Option String :=
  if magic = [80, 52] then some "image/x-portable-bitmap"
  else if magic = [80, 53] then some "image/x-portable-graymap"
  else if magic = [80, 54] then some "image/x-portable-pixmap"
  else none

/-- Digit accumulator for the model of the Python int builtin. -/
def digitsValAux : List Nat → Nat → Option Nat
  | [], acc => some acc
  | d :: rest, acc =>
    if 48 ≤ d ∧ d ≤ 57 then digitsValAux rest (acc * 10 + (d - 48))
    else none

/-- Model of the Python builtin int applied to a header token (a byte
  string): an optional sign byte followed by at least one ASCII decimal
  digit yields the signed decimal value, anything else raises
  ValueError (modelled as none).  Tokens produced by _read_token never
  contain whitespace, and the further Python int syntax (underscore
  digit grouping) plays no role in any claim checked here. -/
def pyInt : List Nat → Option Int
  | [] => none
  | [43] => none
  | [45] => none
  | 43 :: rest => (digitsValAux rest 0).map (fun v => (v : Int))
  | 45 :: rest => (digitsValAux rest 0).map (fun v => -(v : Int))
  | token => (digitsValAux token 0).map (fun v => (v : Int))

/-- Failures raised by PpmImageFile._open.

  notThisFormat is the SyntaxError "not a PPM file"; token wraps a
  ValueError propagated from _read_token; intParse is the ValueError
  raised by the int builtin on a malformed token; tooManyColors is the
  ValueError "Too many colors for band" carrying the maxval. -/
inductive OpenErr where
  | notThisFormat : OpenErr
  | token : TokErr → OpenErr
  | intParse : List Nat → OpenErr
  | tooManyColors : Int → OpenErr
  deriving DecidableEq

/-- One entry of self.tile as built by _open and _save:
  ("raw", (x0, y0, x1, y1), offset, (rawmode, stride, orientation)). -/
structure RawTile where
  codec : String
  box : Int × Int × Int × Int
  offset : Nat
  args : String × Nat × Nat
  deriving DecidableEq

/-- The state PpmImageFile._open leaves on the image object:
  self.mode, self.custom_mimetype, self._size and the single tile. -/
structure OpenResult where
  mode : String
  custom_mimetype : Option String
  size : Int × Int
  tile : RawTile
  deriving DecidableEq

/-- Reading one header integer: int(self._read_token()), with the
  tokenizer's ValueError and the int builtin's ValueError propagated. -/
def readInt (input : List Nat) : Except OpenErr (Int × List Nat) :=
  match readToken input with
  | .error e => .error (.token e)
  | .ok (tok, rest) =>
    match pyInt tok with
    | none => .error (.intParse tok)
    | some v => .ok (v, rest)

/-- PpmImageFile._open on a byte stream.

  Reads the magic, looks it up in MODES (an unknown magic raises the
  SyntaxError), resolves the custom MIME type, sets the initial
  mode/rawmode pair ("1" gets rawmode "1;I", every other mode is its own
  rawmode), then reads width and height; mode "1" stops there, any other
  mode also reads maxval.  A maxval above 255 is only legal for mode
  "L", where it promotes rawmode to "I;16B" when maxval < 2 ** 16 and to
  "I;32B" otherwise, and sets the reported mode to "I".  The tile
  offset is fp.tell(), the number of bytes consumed so far. -/
def _open (input : List Nat) : Except OpenErr OpenResult :=
  let p := readMagic input
  let magic_number := p.1
  match MODES magic_number with
  | none => .error .notThisFormat
  | some mode =>
    let mime := customMimetype magic_number
    let m0 := if mode = "1" then "1" else mode
    let raw0 := if mode = "1" then "1;I" else mode
    match readInt p.2 with
    | .error e => .error e
    | .ok (xsize, r1) =>
      match readInt r1 with
      | .error e => .error e
      | .ok (ysize, r2) =>
        if mode = "1" then
          .ok ⟨m0, mime, (xsize, ysize),
            ⟨"raw", (0, 0, xsize, ysize), input.length - r2.length, (raw0, 0, 1)⟩⟩
        else
          match readInt r2 with
          | .error e => .error e
          | .ok (maxval, r3) =>
            if maxval > 255 then
              if mode ≠ "L" then .error (.tooManyColors maxval)
              else
                let raw := if maxval < 2 ^ 16 then "I;16B" else "I;32B"
                .ok ⟨"I", mime, (xsize, ysize),
                  ⟨"raw", (0, 0, xsize, ysize), input.length - r3.length, (raw, 0, 1)⟩⟩
            else
              .ok ⟨m0, mime, (xsize, ysize),
                ⟨"raw", (0, 0, xsize, ysize), input.length - r3.length, (raw0, 0, 1)⟩⟩

/-- The inputs _save consumes from the image object: im.mode, im.size,
  and im.getextrema()[1] (the true maximum pixel value, used only on
  the mode "I" path). -/
structure SaveImage where
  mode : String
  xsize : Nat
  ysize : Nat
  extremaMax : Int
  deriving DecidableEq

/-- The failure raised by _save: the OSError
  "cannot write mode ... as PPM" carrying the mode. -/
inductive SaveErr where
  | unsupportedMode : String → SaveErr
  deriving DecidableEq

/-- What _save produces: the header text written to the stream before
  the pixel data, the selected rawmode, and the tile descriptor passed
  to ImageFile._save. -/
structure SaveResult where
  header : String
  rawmode : String
  tile : RawTile
  deriving DecidableEq

/-- The _save function of the plugin.

  The mode dispatch chain selects (rawmode, head); mode "I" consults
  the image extrema and picks the 16-bit big-endian layout below
  2 ** 16 and the 32-bit big-endian layout otherwise.  The header is
  head, a newline, the decimal sizes separated by a space, a newline,
  then the maxval line: "255" for P6, and for P5 "255", "65535" or
  "2147483648" according to the rawmode. -/
def _save (im : SaveImage) : Except SaveErr SaveResult :=
  match
    (if im.mode = "1" then .ok ("1;I", "P4")
     else if im.mode = "L" then .ok ("L", "P5")
     else if im.mode = "I" then
       if im.extremaMax < 2 ^ 16 then .ok ("I;16B", "P5") else .ok ("I;32B", "P5")
     else if im.mode = "RGB" then .ok ("RGB", "P6")
     else if im.mode = "RGBA" then .ok ("RGB", "P6")
     else .error (.unsupportedMode im.mode) :
      Except SaveErr (String × String))
  with
  | .error e => .error e
  | .ok (rawmode, head) =>
    let base := head ++ "\n" ++ toString im.xsize ++ " " ++ toString im.ysize ++ "\n"
    let maxline : String :=
      if head = "P6" then "255\n"
      else if head = "P5" then
        if rawmode = "L" then "255\n"
        else if rawmode = "I;16B" then "65535\n"
        else if rawmode = "I;32B" then "2147483648\n"
        else ""
      else ""
    .ok ⟨base ++ maxline, rawmode,
      ⟨"raw", (0, 0, (im.xsize : Int), (im.ysize : Int)), 0, (rawmode, 0, 1)⟩⟩

end Ppm

namespace ImageStat

/-- The failure shared by the per-channel divisions of mean, var and
  rms: the ZeroDivisionError raised on a channel whose pixel count is
  zero.  This is the EmptyChannel condition of the specification. -/
inductive StatErr where
  | emptyChannel : StatErr
  deriving DecidableEq

/-- The Stat object: the histogram list self.h and the band index list
  self.bands. -/
structure Stat where
  h : List Nat
  bands : List Nat
  deriving DecidableEq

/-- The raw-histogram-list path of Stat.__init__: self.h is the given
  list and self.bands = list(range(len(self.h) // 256)).  The source
  performs no further validation on the list (the image path and the
  isinstance check on non-list arguments are outside this model, whose
  inputs are always histogram lists). -/
def Stat.ofHistogram (h : List Nat) : Stat :=
  ⟨h, List.range (h.length / 256)⟩

/-- The start offsets range(0, len(h), 256) used by the per-layer scans:
  the multiples of 256 below the histogram length. -/
def chunkStarts (n : Nat) : List Nat :=
  (List.range ((n + 255) / 256)).map (fun k => k * 256)

/-- The minmax helper of Stat._getextrema: fold over bin indices 0..255
  starting from n = 255, x = 0, updating n to min n i and x to max x i
  at each index i whose bin is non-zero. -/
def minmax (histogram : List Nat) : Nat × Nat :=
  (List.range 256).foldl
    (fun p i => if histogram.getD i 0 ≠ 0 then (min p.1 i, max p.2 i) else p)
    (255, 0)

/-- Stat._getextrema: minmax applied to each tail slice self.h[i:] for
  i in range(0, len(self.h), 256). -/
def Stat.extrema (s : Stat) : List (Nat × Nat) :=
  (chunkStarts s.h.length).map (fun i => minmax (s.h.drop i))

/-- Stat._getcount: the sum of each 256-bin slice self.h[i : i + 256]
  for i in range(0, len(self.h), 256). -/
def Stat.count (s : Stat) : List Nat :=
  (chunkStarts s.h.length).map (fun i => ((s.h.drop i).take 256).sum)

/-- Stat._getsum: for each layer, the float accumulation of
  j * self.h[i + j] over j in range(256), modelled exactly over the
  rationals. -/
def Stat.sum (s : Stat) : List Rat :=
  (chunkStarts s.h.length).map (fun i =>
    ((List.range 256).map (fun (j : Nat) => (j : Rat) * ((s.h.getD (i + j) 0 : Nat) : Rat))).sum)

/-- Stat._getsum2: for each layer, the float accumulation of
  j ** 2 * self.h[i + j] over j in range(256), modelled exactly over
  the rationals. -/
def Stat.sum2 (s : Stat) : List Rat :=
  (chunkStarts s.h.length).map (fun i =>
    ((List.range 256).map (fun (j : Nat) => (j : Rat) ^ 2 * ((s.h.getD (i + j) 0 : Nat) : Rat))).sum)

/-- Python float division: raises ZeroDivisionError on a zero
  denominator (never yielding NaN or an infinity), otherwise exact on
  these rational inputs. -/
def fdiv (a b : Rat) : Except StatErr Rat :=
  if b = 0 then .error .emptyChannel else .ok (a / b)

/-- Stat._getmean: self.sum[i] / self.count[i] for i in self.bands;
  the first empty band raises and the whole access fails. -/
def Stat.mean (s : Stat) : Except StatErr (List Rat) :=
  s.bands.mapM (fun i => fdiv ((Stat.sum s).getD i 0) ((Stat.count s).getD i 0 : Nat))

/-- The scanning loop of Stat._getmedian for one layer: walk the bin
  indices js (always range(256) at the call site), accumulating s; stop
  at the first index whose cumulative count exceeds half.  When the
  loop exhausts, the Python loop variable holds the last index 255. -/
def medianScan (h : List Nat) (b half : Nat) : Nat → List Nat → Nat
  | _, [] => 255
  | s, j :: js =>
    let s2 := s + h.getD (b + j) 0
    if half < s2 then j else medianScan h b half s2 js

/-- Stat._getmedian: for each band i, scan bins b = i * 256 onwards
  with half = self.count[i] // 2. -/
def Stat.median (s : Stat) : List Nat :=
  s.bands.map (fun i =>
    medianScan s.h (i * 256) ((Stat.count s).getD i 0 / 2) 0 (List.range 256))

/-- Stat._getvar: (self.sum2[i] - self.sum[i] ** 2.0 / n) / n with
  n = self.count[i], for i in self.bands; each division raises on a
  zero denominator. -/
def Stat.var (s : Stat) : Except StatErr (List Rat) :=
  s.bands.mapM (fun i => do
    let n : Rat := ((Stat.count s).getD i 0 : Nat)
    let a ← fdiv (((Stat.sum s).getD i 0) ^ 2) n
    fdiv ((Stat.sum2 s).getD i 0 - a) n)

/-- Stat._getrms: math.sqrt(self.sum2[i] / self.count[i]) for i in
  self.bands.  math.sqrt is a floating-point operation evaluated only
  after the division succeeds, so the statistic is modelled for an
  arbitrary sqrt function; every claim checked here concerns only the
  failure path, which sqrt cannot influence. -/
def Stat.rmsWith (sqrt : Rat → Rat) (s : Stat) : Except StatErr (List Rat) :=
  s.bands.mapM (fun i =>
    (fdiv ((Stat.sum2 s).getD i 0) ((Stat.count s).getD i 0 : Nat)).map sqrt)

/-- Cumulative bin count of the 256-bin channel starting at offset b:
  the sum of the first n bins (bins 0 .. n-1). -/
def cumul (h : List Nat) (b n : Nat) : Nat :=
  ((List.range n).map (fun t => h.getD (b + t) 0)).sum

/-- The two-value histogram of the specification: count 3 at bin 0 and
  count 1 at bin 10, one channel. -/
def twoValHist : List Nat :=
  3 :: (List.replicate 9 0 ++ 1 :: List.replicate 245 0)

/-- A one-channel histogram with a single non-zero bin, count 5 at
  bin 7. -/
def oneBinHist : List Nat :=
  List.replicate 7 0 ++ 5 :: List.replicate 248 0

/-- Invariant of the minmax fold of Stat._getextrema after the bin
  indices below j0 have been processed: either every processed bin was
  zero and the state is still the initial pair (255, 0), or the state
  holds the first and the last processed index with a non-zero bin. -/
def extrInv (bin : Nat → Nat) (j0 : Nat) (p : Nat × Nat) : Prop :=
  ((∀ t, t < j0 → bin t = 0) ∧ p = (255, 0)) ∨
  (bin p.1 ≠ 0 ∧ p.1 < j0 ∧ (∀ t, t < p.1 → bin t = 0) ∧
   bin p.2 ≠ 0 ∧ p.2 < j0 ∧ ∀ t, p.2 < t → t < j0 → bin t = 0)

end ImageStat

namespace Ppm

/-- A stream of whitespace bytes is consumed entirely without
  accumulating a token byte, so the EOF ValueError is raised. -/
theorem readTokenAux_ws (input : List Nat) (hws : ∀ c ∈ input, isWS c = true) :
    readTokenAux input false [] = .error .eofHeader := by
  induction input with
  | nil => simp [readTokenAux, finishToken]
  | cons c rest ih =>
    have hc : isWS c = true := hws c (by simp)
    have ih' := ih fun c' h' => hws c' (List.mem_cons_of_mem _ h')
    simp [readTokenAux, hc, ih']

/-- Once more than 10 token bytes are accumulated, the scanning loop
  exits before reading anything further and the post-loop checks run. -/
theorem readTokenAux_long (input token : List Nat) (h : token.length > 10) :
    readTokenAux input false token = finishToken token input := by
  cases input <;> simp [readTokenAux, h]

/-- Accumulating a run of plain token bytes whose total length reaches
  11 makes the scanning loop exit with an over-long token, raising the
  token-too-long ValueError that reports the token. -/
theorem readTokenAux_run (run : List Nat) :
    ∀ token rest : List Nat, token.length + run.length = 11 →
      (∀ c ∈ run, isWS c = false ∧ c ≠ 35) →
      readTokenAux (run ++ rest) false token = .error (.tokenTooLong (token ++ run)) := by
  induction run with
  | nil =>
    intro token rest hlen _
    have h11 : token.length = 11 := by simpa using hlen
    have hne : token ≠ [] := by
      intro h; rw [h] at h11; simp at h11
    rw [List.nil_append, readTokenAux_long _ _ (by omega)]
    simp [finishToken, h11, hne]
  | cons c run ih =>
    intro token rest hlen hc
    have h10 : ¬ token.length > 10 := by
      simp only [List.length_cons] at hlen; omega
    have hcw : isWS c = false := (hc c (List.mem_cons_self c run)).1
    have hc35 : c ≠ 35 := (hc c (List.mem_cons_self c run)).2
    simp only [List.cons_append, readTokenAux, h10, if_false]
    rw [if_neg (by simp [hcw]), if_neg (by simp [hcw]), if_neg hc35]
    have := ih (token ++ [c]) rest (by simp only [List.length_append,
      List.length_cons, List.length_nil] at hlen ⊢; omega)
      (fun c' h' => hc c' (List.mem_cons_of_mem _ h'))
    simpa [List.append_assoc] using this

/-- When the comment-discarding loop is running and the remaining bytes
  contain no CR and no LF, it consumes them all, stops at end of input,
  and the token accumulated so far is finished. -/
theorem readTokenAux_comment_eof (tail : List Nat) :
    ∀ token : List Nat, (∀ c ∈ tail, ¬(c = 13 ∨ c = 10)) →
      readTokenAux tail true token = finishToken token [] := by
  induction tail with
  | nil => intro token _; simp [readTokenAux]
  | cons c rest ih =>
    intro token hc
    have : ¬(c = 13 ∨ c = 10) := hc c (List.mem_cons_self c rest)
    simp only [readTokenAux, if_neg this]
    exact ih token fun c' h' => hc c' (List.mem_cons_of_mem _ h')

/-- When the comment-discarding loop is running and a LF arrives after
  comment bytes free of CR and LF, the whole comment is dropped and the
  outer scanning loop resumes with the token it had accumulated. -/
theorem readTokenAux_comment_lf (comment : List Nat) :
    ∀ rest token : List Nat, (∀ c ∈ comment, ¬(c = 13 ∨ c = 10)) →
      readTokenAux (comment ++ 10 :: rest) true token = readTokenAux rest false token := by
  induction comment with
  | nil => intro rest token _; simp [readTokenAux]
  | cons c cs ih =>
    intro rest token hc
    have : ¬(c = 13 ∨ c = 10) := hc c (List.mem_cons_self c cs)
    simp only [List.cons_append, readTokenAux, if_neg this]
    exact ih rest token fun c' h' => hc c' (List.mem_cons_of_mem _ h')

/-- The number-sign byte encountered while a token of at most 10 bytes
  has been accumulated enters the comment-discarding loop with the
  token retained. -/
theorem readTokenAux_hash (rest token : List Nat) (h10 : token.length ≤ 10) :
    readTokenAux (35 :: rest) false token = readTokenAux rest true token := by
  simp only [readTokenAux, if_neg (by omega : ¬ token.length > 10)]
  rw [if_neg (by simp [isWS, b_whitespace]), if_neg (by simp [isWS, b_whitespace])]
  simp

/-- The fuel-counting rendition of the two reading loops agrees with
  the direct one whenever the fuel is at least the number of bytes
  remaining: every loop iteration that recurses consumes a byte. -/
theorem readTokenFuel_eq (input : List Nat) :
    ∀ (fuel : Nat) (mode : Bool) (token : List Nat), input.length ≤ fuel →
      readTokenFuel fuel input mode token = some (readTokenAux input mode token) := by
  induction input with
  | nil =>
    intro fuel mode token _
    cases mode <;> simp [readTokenFuel, readTokenAux]
  | cons c rest ih =>
    intro fuel mode token hf
    match fuel with
    | 0 => simp at hf
    | f + 1 =>
      have hr : rest.length ≤ f := by simp only [List.length_cons] at hf; omega
      cases mode with
      | true =>
        simp only [readTokenFuel, readTokenAux]
        split
        · exact ih f false token hr
        · exact ih f true token hr
      | false =>
        simp only [readTokenFuel, readTokenAux]
        split
        · rfl
        · split
          · exact ih f false token hr
          · split
            · rfl
            · split
              · exact ih f true token hr
              · exact ih f false (token ++ [c]) hr

end Ppm

/-- C3: the claim states that bytes read before a number sign and bytes
  read after the discarded comment line are never spliced into a single
  returned token.  The code refutes it: on the stream
  "12#c LF 34 SP" the tokenizer returns the single token "1234",
  splicing the bytes read before the number sign together with the
  bytes read after the comment line (the comment byte itself is
  discarded). -/
theorem C3_counterexample_comment_splice :
    Ppm.readToken ([49, 50] ++ [35, 99, 10] ++ [51, 52] ++ [32]) =
      .ok ([49, 50] ++ [51, 52], []) := by decide

/-- C3 amended: upon encountering a number-sign byte after token bytes
  have been accumulated, the tokenizer discards the comment bytes up to
  and including the line end but keeps the accumulated token, so the
  bytes read before the number sign and the bytes read after the
  comment line are spliced into a single returned token; only the
  comment's own bytes never appear in it. -/
theorem C3_amended_comment_resumes_token :
    (∀ rest token : List Nat, token ≠ [] → token.length ≤ 10 →
      Ppm.readTokenAux (35 :: rest) false token = Ppm.readTokenAux rest true token) ∧
    (∀ comment rest token : List Nat, (∀ c ∈ comment, ¬(c = 13 ∨ c = 10)) →
      Ppm.readTokenAux (comment ++ 10 :: rest) true token =
        Ppm.readTokenAux rest false token) :=
  ⟨fun rest token _ h10 => Ppm.readTokenAux_hash rest token h10,
   fun comment rest token hc => Ppm.readTokenAux_comment_lf comment rest token hc⟩

theorem C3_amended_witness :
    Ppm.readTokenAux (35 :: [99, 10, 51, 52, 32]) false [49, 50] =
        Ppm.readTokenAux [99, 10, 51, 52, 32] true [49, 50] ∧
      Ppm.readTokenAux ([99] ++ 10 :: [51, 52, 32]) true [49, 50] =
        Ppm.readTokenAux [51, 52, 32] false [49, 50] :=
  ⟨C3_amended_comment_resumes_token.1 [99, 10, 51, 52, 32] [49, 50] (by decide) (by decide),
   C3_amended_comment_resumes_token.2 [99] [51, 52, 32] [49, 50] (by decide)⟩

/-- C8: the tokenizer skips leading whitespace and accumulates token
  bytes; a stream of whitespace only (end of input with nothing
  accumulated) raises the EOF ValueError, an 11-byte run of token bytes
  raises the token-too-long ValueError reporting those 11 bytes, and
  reading twice from "  12 #comment LF 34" yields the tokens "12" and
  then "34". -/
theorem C8_read_token_errors :
    (∀ input : List Nat, (∀ c ∈ input, Ppm.isWS c = true) →
      Ppm.readToken input = .error .eofHeader) ∧
    (∀ run rest : List Nat, run.length = 11 →
      (∀ c ∈ run, Ppm.isWS c = false ∧ c ≠ 35) →
      Ppm.readToken (run ++ rest) = .error (.tokenTooLong run)) ∧
    Ppm.readToken [32, 32, 49, 50, 32, 35, 99, 111, 109, 109, 101, 110, 116, 10, 51, 52] =
      .ok ([49, 50], [35, 99, 111, 109, 109, 101, 110, 116, 10, 51, 52]) ∧
    Ppm.readToken [35, 99, 111, 109, 109, 101, 110, 116, 10, 51, 52] = .ok ([51, 52], []) := by
  refine ⟨fun input hws => Ppm.readTokenAux_ws input hws, fun run rest hlen hc => ?_, by decide,
    by decide⟩
  simpa using Ppm.readTokenAux_run run [] rest (by simpa using hlen) hc

theorem C8_read_token_errors_witness :
    Ppm.readToken [32, 9] = .error .eofHeader ∧
    Ppm.readToken [97, 98, 99, 100, 101, 102, 103, 104, 105, 106, 107] =
      .error (.tokenTooLong [97, 98, 99, 100, 101, 102, 103, 104, 105, 106, 107]) :=
  ⟨C8_read_token_errors.1 [32, 9] (by decide),
   by
    have := C8_read_token_errors.2.1 [97, 98, 99, 100, 101, 102, 103, 104, 105, 106, 107] []
      (by decide) (by decide)
    simpa using this⟩

/-- C10: the tokenizer terminates on every finite stream.  The
  fuel-counting rendition of its loops finishes within one step per
  remaining byte, and when the stream ends inside a comment the
  comment-discarding loop stops at end of input, after which the
  tokenizer returns the accumulated token or raises the EOF ValueError
  if nothing was accumulated. -/
theorem C10_read_token_terminates :
    (∀ (input : List Nat) (fuel : Nat), input.length ≤ fuel →
      Ppm.readTokenFuel fuel input false [] = some (Ppm.readToken input)) ∧
    (∀ tail token : List Nat, (∀ c ∈ tail, ¬(c = 13 ∨ c = 10)) →
      Ppm.readTokenAux tail true token = Ppm.finishToken token []) :=
  ⟨fun input fuel hf => Ppm.readTokenFuel_eq input fuel false [] hf,
   fun tail token hc => Ppm.readTokenAux_comment_eof tail token hc⟩

theorem C10_read_token_terminates_witness :
    Ppm.readTokenFuel 6 [49, 50, 35, 97, 98, 99] false [] =
        some (Ppm.readToken [49, 50, 35, 97, 98, 99]) ∧
      Ppm.readTokenAux [97, 98, 99] true [49, 50] = Ppm.finishToken [49, 50] [] :=
  ⟨C10_read_token_terminates.1 [49, 50, 35, 97, 98, 99] 6 (by decide),
   C10_read_token_terminates.2 [97, 98, 99] [49, 50] (by decide)⟩

/-- C1: decoding a header whose magic resolves to the grayscale mode
  "L" and whose maxval token parses to a value above 255 succeeds with
  the reported pixel mode "I", and the raw layout of the tile is the
  16-bit big-endian rawmode "I;16B" exactly when maxval < 65536 and the
  32-bit big-endian rawmode "I;32B" otherwise. -/
theorem C1_wide_grayscale_decode
    (input r0 r1 r2 r3 m t1 t2 t3 : List Nat) (w h mv : Int)
    (hm : Ppm.readMagic input = (m, r0)) (hmode : Ppm.MODES m = some "L")
    (h1 : Ppm.readToken r0 = .ok (t1, r1)) (hw : Ppm.pyInt t1 = some w)
    (h2 : Ppm.readToken r1 = .ok (t2, r2)) (hh : Ppm.pyInt t2 = some h)
    (h3 : Ppm.readToken r2 = .ok (t3, r3)) (hmv : Ppm.pyInt t3 = some mv)
    (hgt : mv > 255) :
    Ppm._open input = .ok ⟨"I", Ppm.customMimetype m, (w, h),
      ⟨"raw", (0, 0, w, h), input.length - r3.length,
        ((if mv < 65536 then "I;16B" else "I;32B"), 0, 1)⟩⟩ := by
  rw [show ((65536 : Int)) = 2 ^ 16 by norm_num]
  simp [Ppm._open, Ppm.readInt, hm, hmode, h1, hw, h2, hh, h3, hmv, hgt]

theorem C1_wide_grayscale_decode_witness :
    Ppm._open [80, 53, 32, 51, 32, 50, 32, 54, 53, 53, 51, 53, 32] =
        .ok ⟨"I", some "image/x-portable-graymap", (3, 2),
          ⟨"raw", (0, 0, 3, 2), 13, ("I;16B", 0, 1)⟩⟩ ∧
      Ppm._open [80, 53, 32, 51, 32, 50, 32, 54, 53, 53, 51, 54, 32] =
        .ok ⟨"I", some "image/x-portable-graymap", (3, 2),
          ⟨"raw", (0, 0, 3, 2), 13, ("I;32B", 0, 1)⟩⟩ ∧
      Ppm._open [80, 53, 32, 51, 32, 50, 32, 55, 48, 48, 48, 48, 32] =
        .ok ⟨"I", some "image/x-portable-graymap", (3, 2),
          ⟨"raw", (0, 0, 3, 2), 13, ("I;32B", 0, 1)⟩⟩ := by
  refine ⟨?_, ?_, ?_⟩
  · have := C1_wide_grayscale_decode
      [80, 53, 32, 51, 32, 50, 32, 54, 53, 53, 51, 53, 32] [51, 32, 50, 32, 54, 53, 53, 51, 53, 32]
      [50, 32, 54, 53, 53, 51, 53, 32] [54, 53, 53, 51, 53, 32] []
      [80, 53] [51] [50] [54, 53, 53, 51, 53] 3 2 65535
      (by decide) (by decide) (by decide) (by decide) (by decide) (by decide) (by decide)
      (by decide) (by decide)
    simpa using this
  · have := C1_wide_grayscale_decode
      [80, 53, 32, 51, 32, 50, 32, 54, 53, 53, 51, 54, 32] [51, 32, 50, 32, 54, 53, 53, 51, 54, 32]
      [50, 32, 54, 53, 53, 51, 54, 32] [54, 53, 53, 51, 54, 32] []
      [80, 53] [51] [50] [54, 53, 53, 51, 54] 3 2 65536
      (by decide) (by decide) (by decide) (by decide) (by decide) (by decide) (by decide)
      (by decide) (by decide)
    simpa using this
  · have := C1_wide_grayscale_decode
      [80, 53, 32, 51, 32, 50, 32, 55, 48, 48, 48, 48, 32] [51, 32, 50, 32, 55, 48, 48, 48, 48, 32]
      [50, 32, 55, 48, 48, 48, 48, 32] [55, 48, 48, 48, 48, 32] []
      [80, 53] [51] [50] [55, 48, 48, 48, 48] 3 2 70000
      (by decide) (by decide) (by decide) (by decide) (by decide) (by decide) (by decide)
      (by decide) (by decide)
    simpa using this

/-- C9: decoding a header whose magic resolves to one of the
  non-bilevel, non-grayscale modes (RGB, CMYK, the palette mode P, or
  the alpha-extended RGBA) and whose maxval token parses to a value
  above 255 fails with the ValueError "Too many colors for band"
  reporting the maxval. -/
theorem C9_too_many_colors
    (input r0 r1 r2 r3 m t1 t2 t3 : List Nat) (w h mv : Int) (mode : String)
    (hm : Ppm.readMagic input = (m, r0)) (hmode : Ppm.MODES m = some mode)
    (hset : mode = "RGB" ∨ mode = "CMYK" ∨ mode = "P" ∨ mode = "RGBA")
    (h1 : Ppm.readToken r0 = .ok (t1, r1)) (hw : Ppm.pyInt t1 = some w)
    (h2 : Ppm.readToken r1 = .ok (t2, r2)) (hh : Ppm.pyInt t2 = some h)
    (h3 : Ppm.readToken r2 = .ok (t3, r3)) (hmv : Ppm.pyInt t3 = some mv)
    (hgt : mv > 255) :
    Ppm._open input = .error (.tooManyColors mv) := by
  rcases hset with hs | hs | hs | hs <;> subst hs <;>
    simp [Ppm._open, Ppm.readInt, hm, hmode, h1, hw, h2, hh, h3, hmv, hgt]

theorem C9_too_many_colors_witness :
    Ppm._open [80, 54, 32, 51, 32, 50, 32, 50, 53, 54, 32] =
      .error (.tooManyColors 256) := by
  have := C9_too_many_colors
    [80, 54, 32, 51, 32, 50, 32, 50, 53, 54, 32] [51, 32, 50, 32, 50, 53, 54, 32]
    [50, 32, 50, 53, 54, 32] [50, 53, 54, 32] []
    [80, 54] [51] [50] [50, 53, 54] 3 2 256 "RGB"
    (by decide) (by decide) (Or.inl rfl) (by decide) (by decide) (by decide) (by decide)
    (by decide) (by decide) (by decide)
  exact this

/-- C2: saving a wide-integer image (mode "I") consults the true
  maximum pixel value: below 65536 the header's maxval line is exactly
  "65535" with the 16-bit big-endian rawmode "I;16B", and otherwise the
  maxval line is exactly the legacy literal "2147483648" with the
  32-bit big-endian rawmode "I;32B". -/
theorem C2_save_wide (im : Ppm.SaveImage) (hm : im.mode = "I") :
    (im.extremaMax < 65536 →
      Ppm._save im = .ok ⟨"P5" ++ "\n" ++ toString im.xsize ++ " " ++ toString im.ysize ++
          "\n" ++ "65535\n", "I;16B",
        ⟨"raw", (0, 0, (im.xsize : Int), (im.ysize : Int)), 0, ("I;16B", 0, 1)⟩⟩) ∧
    (65536 ≤ im.extremaMax →
      Ppm._save im = .ok ⟨"P5" ++ "\n" ++ toString im.xsize ++ " " ++ toString im.ysize ++
          "\n" ++ "2147483648\n", "I;32B",
        ⟨"raw", (0, 0, (im.xsize : Int), (im.ysize : Int)), 0, ("I;32B", 0, 1)⟩⟩) := by
  constructor <;> intro hext
  · simp [Ppm._save, hm, hext]
  · simp [Ppm._save, hm, not_lt.mpr hext]

theorem C2_save_wide_witness :
    Ppm._save ⟨"I", 3, 2, 65535⟩ =
        .ok ⟨"P5\n3 2\n65535\n", "I;16B", ⟨"raw", (0, 0, 3, 2), 0, ("I;16B", 0, 1)⟩⟩ ∧
      Ppm._save ⟨"I", 3, 2, 65536⟩ =
        .ok ⟨"P5\n3 2\n2147483648\n", "I;32B", ⟨"raw", (0, 0, 3, 2), 0, ("I;32B", 0, 1)⟩⟩ :=
  ⟨((C2_save_wide ⟨"I", 3, 2, 65535⟩ rfl).1 (by norm_num)).trans (by decide),
   ((C2_save_wide ⟨"I", 3, 2, 65536⟩ rfl).2 (by norm_num)).trans (by decide)⟩

namespace ImageStat

/-- The start offsets of the per-layer scans over a histogram of
  length 256 * k are exactly the k multiples of 256. -/
theorem chunkStarts_mul (k : Nat) :
    chunkStarts (256 * k) = (List.range k).map (fun u => u * 256) := by
  have h : (256 * k + 255) / 256 = k := by omega
  unfold chunkStarts
  rw [h]

/-- Indexing a mapped range below its length picks out the mapped
  value. -/
theorem getD_map_range {β : Type} (f : Nat → β) (k i : Nat) (d : β) (hik : i < k) :
    ((List.range k).map f).getD i d = f i := by
  rw [List.getD_eq_getElem _ _ (by simpa using hik)]
  simp

/-- Indexing past a dropped prefix reads the underlying list. -/
theorem getD_drop (h : List Nat) (b t : Nat) :
    (h.drop b).getD t 0 = h.getD (b + t) 0 := by
  rcases lt_or_ge (b + t) h.length with hlt | hge
  · rw [List.getD_eq_getElem _ _ (by simp; omega), List.getD_eq_getElem _ _ hlt]
    simp [List.getElem_drop]
  · rw [List.getD_eq_default _ _ (by simp; omega), List.getD_eq_default _ _ (by omega)]

/-- A full 256-bin slice of the histogram, spelled as the list of its
  default-indexed reads. -/
theorem take_drop_eq_map_range (h : List Nat) (b : Nat) (hb : b + 256 ≤ h.length) :
    (h.drop b).take 256 = (List.range 256).map (fun t => h.getD (b + t) 0) := by
  apply List.ext_getElem
  · simp; omega
  · intro t ht1 ht2
    have htl : t < 256 := by simpa using ht2
    have htb : b + t < h.length := by omega
    simp only [List.getElem_take, List.getElem_drop, List.getElem_map, List.getElem_range]
    rw [List.getD_eq_getElem _ _ htb]

/-- The layer count self.count[i] of a valid histogram is the full
  cumulative bin count of channel i. -/
theorem count_getD (h : List Nat) (k i : Nat) (hlen : h.length = 256 * k) (hik : i < k) :
    (Stat.count (Stat.ofHistogram h)).getD i 0 = cumul h (i * 256) 256 := by
  have hb : i * 256 + 256 ≤ h.length := by rw [hlen]; omega
  show ((chunkStarts h.length).map fun b => ((h.drop b).take 256).sum).getD i 0 = _
  rw [hlen, chunkStarts_mul, List.map_map]
  rw [getD_map_range _ k i 0 hik]
  show ((h.drop (i * 256)).take 256).sum = _
  rw [take_drop_eq_map_range h (i * 256) hb]
  rfl

/-- Dividing by a zero denominator raises. -/
theorem fdiv_zero (a : Rat) : fdiv a 0 = .error .emptyChannel := by
  simp [fdiv]

/-- A mapM over Except with the one-constructor error type fails with
  that error as soon as one entry fails: the list comprehension raises
  at the first empty band. -/
theorem mapM_error_of_mem {α β : Type} (f : α → Except StatErr β) (l : List α)
    (hex : ∃ x ∈ l, f x = .error .emptyChannel) :
    l.mapM f = .error .emptyChannel := by
  induction l with
  | nil => simp at hex
  | cons a l ih =>
    rw [List.mapM_cons]
    rcases hex with ⟨x, hx, hfx⟩
    cases hfa : f a with
    | error e =>
      cases e
      rfl
    | ok b =>
      have hxl : x ∈ l := by
        rcases List.mem_cons.mp hx with h | h
        · rw [h, hfa] at hfx; cases hfx
        · exact h
      simp only [hfa, ih ⟨x, hxl, hfx⟩]
      rfl

/-- The per-channel count of an all-zero channel of a valid histogram
  is zero. -/
theorem count_getD_zero (h : List Nat) (k i : Nat) (hlen : h.length = 256 * k) (hik : i < k)
    (hz : ∀ t, t < 256 → h.getD (i * 256 + t) 0 = 0) :
    (Stat.count (Stat.ofHistogram h)).getD i 0 = 0 := by
  rw [count_getD h k i hlen hik]
  unfold cumul
  apply List.sum_eq_zero
  intro x hx
  rcases List.mem_map.mp hx with ⟨t, ht, hxe⟩
  rw [← hxe]
  exact hz t (List.mem_range.mp ht)

/-- The bands of a valid histogram of k channels are range k. -/
theorem bands_eq (h : List Nat) (k : Nat) (hlen : h.length = 256 * k) :
    (Stat.ofHistogram h).bands = List.range k := by
  unfold Stat.ofHistogram
  rw [hlen, Nat.mul_div_cancel_left _ (by norm_num : (0 : Nat) < 256)]

end ImageStat

/-- C4: the claim states that constructing the statistics object from a
  raw histogram list fails whenever the length is not a positive
  multiple of 256.  The code refutes it: the constructor performs no
  length check, and a list of length 300 is accepted, yielding a usable
  object with one derived channel. -/
theorem C4_counterexample_no_length_check :
    (ImageStat.Stat.ofHistogram (List.replicate 300 0)).bands.length = 1 ∧ ¬ (256 ∣ 300) := by
  constructor
  · decide
  · decide

/-- C4 amended: construction from a raw histogram list performs no
  length validation and always succeeds; the derived channel count is
  the floor of length / 256, so the empty list and a length-100 list
  give zero channels and a length-300 list gives one channel. -/
theorem C4_amended_no_validation :
    (∀ h : List Nat, (ImageStat.Stat.ofHistogram h).bands = List.range (h.length / 256) ∧
      (ImageStat.Stat.ofHistogram h).bands.length = h.length / 256) ∧
    (ImageStat.Stat.ofHistogram []).bands = [] ∧
    (ImageStat.Stat.ofHistogram (List.replicate 100 0)).bands = [] ∧
    (ImageStat.Stat.ofHistogram (List.replicate 300 0)).bands = [0] :=
  ⟨fun h => ⟨rfl, by simp [ImageStat.Stat.ofHistogram]⟩, by decide, by decide, by decide⟩

/-- C5: on a valid histogram containing an all-zero channel, accessing
  mean, var or rms fails with the division-by-zero condition (the
  specification's EmptyChannel) instead of silently producing a NaN or
  an infinity. -/
theorem C5_empty_channel_fails (h : List Nat) (k i : Nat)
    (hlen : h.length = 256 * k) (hik : i < k)
    (hz : ∀ t, t < 256 → h.getD (i * 256 + t) 0 = 0) :
    ImageStat.Stat.mean (ImageStat.Stat.ofHistogram h) = .error .emptyChannel ∧
    ImageStat.Stat.var (ImageStat.Stat.ofHistogram h) = .error .emptyChannel ∧
    ∀ sqrt : Rat → Rat,
      ImageStat.Stat.rmsWith sqrt (ImageStat.Stat.ofHistogram h) = .error .emptyChannel := by
  have hc0 : (ImageStat.Stat.count (ImageStat.Stat.ofHistogram h)).getD i 0 = 0 :=
    ImageStat.count_getD_zero h k i hlen hik hz
  have hmem : i ∈ (ImageStat.Stat.ofHistogram h).bands := by
    rw [ImageStat.bands_eq h k hlen]; exact List.mem_range.mpr hik
  refine ⟨?_, ?_, fun sqrt => ?_⟩
  · exact ImageStat.mapM_error_of_mem _ _
      ⟨i, hmem, by simp only [hc0, Nat.cast_zero, ImageStat.fdiv_zero]⟩
  · refine ImageStat.mapM_error_of_mem _ _ ⟨i, hmem, ?_⟩
    simp only [hc0, Nat.cast_zero, ImageStat.fdiv_zero]
    rfl
  · refine ImageStat.mapM_error_of_mem _ _ ⟨i, hmem, ?_⟩
    simp only [hc0, Nat.cast_zero, ImageStat.fdiv_zero]
    rfl

namespace ImageStat

/-- Extending the cumulative count by one bin adds that bin's count. -/
theorem cumul_succ (h : List Nat) (b n : Nat) :
    cumul h b (n + 1) = cumul h b n + h.getD (b + n) 0 := by
  unfold cumul
  rw [List.range_succ, List.map_append, List.sum_append]
  simp

/-- The cumulative count is monotone in the number of bins. -/
theorem cumul_mono (h : List Nat) (b : Nat) {m n : Nat} (hmn : m ≤ n) :
    cumul h b m ≤ cumul h b n := by
  induction n with
  | zero =>
    have hm : m = 0 := by omega
    rw [hm]
  | succ n ih =>
    rcases Nat.eq_or_lt_of_le hmn with h' | h'
    · rw [h']
    · calc cumul h b m ≤ cumul h b n := ih (by omega)
        _ ≤ cumul h b (n + 1) := by rw [cumul_succ]; omega

/-- Behaviour of the median scanning loop over the bin indices from j0
  on, entered with the cumulative count of the first j0 bins: either it
  stops at the first index whose cumulative count exceeds half, below
  256, with every earlier index failing the test, or no index trips the
  threshold and the loop exhausts on the final index 255. -/
theorem medianScan_spec (h : List Nat) (b half : Nat) :
    ∀ n j0 : Nat, j0 + n = 256 →
      (∀ j, j < j0 → cumul h b (j + 1) ≤ half) →
      (half < cumul h b (medianScan h b half (cumul h b j0) (List.range' j0 n) + 1) ∧
        medianScan h b half (cumul h b j0) (List.range' j0 n) < 256 ∧
        ∀ j, j < medianScan h b half (cumul h b j0) (List.range' j0 n) →
          cumul h b (j + 1) ≤ half) ∨
      (medianScan h b half (cumul h b j0) (List.range' j0 n) = 255 ∧
        ∀ j, j < 256 → cumul h b (j + 1) ≤ half) := by
  intro n
  induction n with
  | zero =>
    intro j0 hj0 hpre
    right
    exact ⟨rfl, fun j hj => hpre j (by omega)⟩
  | succ n ih =>
    intro j0 hj0 hpre
    rw [List.range'_succ j0 n 1]
    simp only [medianScan]
    rw [← cumul_succ h b j0]
    by_cases hcase : half < cumul h b (j0 + 1)
    · rw [if_pos hcase]
      left
      exact ⟨hcase, by omega, fun j hj => hpre j hj⟩
    · rw [if_neg hcase]
      exact ih (j0 + 1) (by omega) (fun j hj => by
        rcases Nat.lt_succ_iff_lt_or_eq.mp hj with h' | h'
        · exact hpre j h'
        · rw [h']; omega)

end ImageStat

/-- C6: on a valid histogram, the median of a channel with count 0 is
  the fallback bin index 255, and on a channel with positive count it
  is the smallest bin index whose cumulative bin count strictly exceeds
  half the count (floor division); on the two-value histogram with
  count 3 at bin 0 and count 1 at bin 10 the median is 0. -/
theorem C6_median :
    (∀ (h : List Nat) (k i : Nat), h.length = 256 * k → i < k →
      (((ImageStat.Stat.count (ImageStat.Stat.ofHistogram h)).getD i 0 = 0 →
          (ImageStat.Stat.median (ImageStat.Stat.ofHistogram h)).getD i 0 = 255) ∧
        (0 < (ImageStat.Stat.count (ImageStat.Stat.ofHistogram h)).getD i 0 →
          (ImageStat.Stat.count (ImageStat.Stat.ofHistogram h)).getD i 0 / 2 <
              ImageStat.cumul h (i * 256)
                ((ImageStat.Stat.median (ImageStat.Stat.ofHistogram h)).getD i 0 + 1) ∧
            ∀ j, j < (ImageStat.Stat.median (ImageStat.Stat.ofHistogram h)).getD i 0 →
              ImageStat.cumul h (i * 256) (j + 1) ≤
                (ImageStat.Stat.count (ImageStat.Stat.ofHistogram h)).getD i 0 / 2))) ∧
    ImageStat.Stat.median (ImageStat.Stat.ofHistogram ImageStat.twoValHist) = [0] := by
  constructor
  · intro h k i hlen hik
    have hcount := ImageStat.count_getD h k i hlen hik
    have hmed : (ImageStat.Stat.median (ImageStat.Stat.ofHistogram h)).getD i 0 =
        ImageStat.medianScan h (i * 256)
          ((ImageStat.Stat.count (ImageStat.Stat.ofHistogram h)).getD i 0 / 2) 0
          (List.range 256) := by
      show ((ImageStat.Stat.ofHistogram h).bands.map _).getD i 0 = _
      rw [ImageStat.bands_eq h k hlen, ImageStat.getD_map_range _ k i 0 hik]
      rfl
    have hspec := ImageStat.medianScan_spec h (i * 256)
      ((ImageStat.Stat.count (ImageStat.Stat.ofHistogram h)).getD i 0 / 2) 256 0
      (by omega) (fun j hj => by omega)
    rw [show ImageStat.cumul h (i * 256) 0 = 0 from rfl, ← List.range_eq_range' 256] at hspec
    rw [← hmed] at hspec
    constructor
    · intro hc0
      rcases hspec with ⟨hlt, hm, _⟩ | ⟨hm, _⟩
      · exfalso
        have hle : ImageStat.cumul h (i * 256)
            ((ImageStat.Stat.median (ImageStat.Stat.ofHistogram h)).getD i 0 + 1) ≤
              ImageStat.cumul h (i * 256) 256 :=
          ImageStat.cumul_mono h (i * 256) (by omega)
        rw [← hcount, hc0] at hle
        omega
      · exact hm
    · intro hpos
      rcases hspec with ⟨hlt, hm, hall⟩ | ⟨hm, hall⟩
      · exact ⟨hlt, hall⟩
      · exfalso
        have := hall 255 (by omega)
        rw [show (255 : Nat) + 1 = 256 from rfl, ← hcount] at this
        omega
  · decide

theorem C6_median_witness :
    (((ImageStat.Stat.count (ImageStat.Stat.ofHistogram ImageStat.twoValHist)).getD 0 0 = 0 →
        (ImageStat.Stat.median (ImageStat.Stat.ofHistogram ImageStat.twoValHist)).getD 0 0 =
          255) ∧
      (0 < (ImageStat.Stat.count (ImageStat.Stat.ofHistogram ImageStat.twoValHist)).getD 0 0 →
        (ImageStat.Stat.count (ImageStat.Stat.ofHistogram ImageStat.twoValHist)).getD 0 0 / 2 <
            ImageStat.cumul ImageStat.twoValHist (0 * 256)
              ((ImageStat.Stat.median
                  (ImageStat.Stat.ofHistogram ImageStat.twoValHist)).getD 0 0 + 1) ∧
          ∀ j, j <
              (ImageStat.Stat.median (ImageStat.Stat.ofHistogram ImageStat.twoValHist)).getD
                0 0 →
            ImageStat.cumul ImageStat.twoValHist (0 * 256) (j + 1) ≤
              (ImageStat.Stat.count (ImageStat.Stat.ofHistogram ImageStat.twoValHist)).getD
                  0 0 / 2)) :=
  C6_median.1 ImageStat.twoValHist 1 0 (by decide) (by decide)

namespace ImageStat

/-- The minmax fold of Stat._getextrema, with the channel reads spelled
  through the underlying histogram. -/
theorem minmax_eq_foldl (h : List Nat) (b : Nat) :
    minmax (h.drop b) = (List.range 256).foldl
      (fun q t => if h.getD (b + t) 0 ≠ 0 then (min q.1 t, max q.2 t) else q) (255, 0) := by
  unfold minmax
  congr 1
  funext q t
  rw [getD_drop]

/-- The minmax fold preserves its invariant across a block of bin
  indices below 256. -/
theorem foldl_minmax_inv (bin : Nat → Nat) :
    ∀ n j0 : Nat, j0 + n ≤ 256 → ∀ p : Nat × Nat, extrInv bin j0 p →
      extrInv bin (j0 + n)
        ((List.range' j0 n).foldl
          (fun q t => if bin t ≠ 0 then (min q.1 t, max q.2 t) else q) p) := by
  intro n
  induction n with
  | zero => intro j0 _ p hp; simpa using hp
  | succ n ih =>
    intro j0 hle p hp
    rw [List.range'_succ j0 n 1, List.foldl_cons]
    have hstep : extrInv bin (j0 + 1)
        (if bin j0 ≠ 0 then (min p.1 j0, max p.2 j0) else p) := by
      by_cases hb : bin j0 = 0
      · rw [if_neg (by simpa using hb)]
        rcases hp with ⟨hz, hpe⟩ | ⟨h1, h2, h3, h4, h5, h6⟩
        · left
          refine ⟨fun t ht => ?_, hpe⟩
          rcases Nat.lt_succ_iff_lt_or_eq.mp ht with h' | h'
          · exact hz t h'
          · rw [h']; exact hb
        · right
          refine ⟨h1, by omega, h3, h4, by omega, fun t ht1 ht2 => ?_⟩
          rcases Nat.lt_succ_iff_lt_or_eq.mp ht2 with h' | h'
          · exact h6 t ht1 h'
          · rw [h']; exact hb
      · rw [if_pos (by simpa using hb)]
        have hj0 : j0 ≤ 255 := by omega
        rcases hp with ⟨hz, hpe⟩ | ⟨h1, h2, h3, h4, h5, h6⟩
        · right
          rw [hpe]
          have hpair : (min (255, 0).1 j0, max (255, 0).2 j0) = (j0, j0) := by
            simp [min_eq_right hj0]
          rw [hpair]
          exact ⟨hb, Nat.lt_succ_self j0, fun t ht => hz t ht, hb, Nat.lt_succ_self j0,
            fun t ht1 ht2 => absurd ht2 (by omega)⟩
        · right
          have hpair : (min p.1 j0, max p.2 j0) = (p.1, j0) := by
            rw [min_eq_left (by omega), max_eq_right (by omega)]
          rw [hpair]
          exact ⟨h1, by omega, h3, hb, Nat.lt_succ_self j0,
            fun t ht1 ht2 => absurd ht2 (by omega)⟩
    have hres := ih (j0 + 1) (by omega) _ hstep
    rw [show j0 + (n + 1) = (j0 + 1) + n by omega]
    exact hres

end ImageStat

/-- C7: on a valid histogram the extrema of a channel is the pair of
  the first and the last bin index with a non-zero count; a channel
  with every bin zero yields the sentinel pair (255, 0) without
  failing, and a channel with a single non-zero bin at index 7 yields
  (7, 7). -/
theorem C7_extrema :
    (∀ (h : List Nat) (k i n x : Nat), h.length = 256 * k → i < k →
      (ImageStat.Stat.extrema (ImageStat.Stat.ofHistogram h)).getD i (255, 0) = (n, x) →
      ((∀ t, t < 256 → h.getD (i * 256 + t) 0 = 0) → n = 255 ∧ x = 0) ∧
      ((∃ t, t < 256 ∧ h.getD (i * 256 + t) 0 ≠ 0) →
        h.getD (i * 256 + n) 0 ≠ 0 ∧ n < 256 ∧
        (∀ t, t < n → h.getD (i * 256 + t) 0 = 0) ∧
        h.getD (i * 256 + x) 0 ≠ 0 ∧ x < 256 ∧
        ∀ t, x < t → t < 256 → h.getD (i * 256 + t) 0 = 0)) ∧
    ImageStat.Stat.extrema (ImageStat.Stat.ofHistogram (List.replicate 256 0)) = [(255, 0)] ∧
    ImageStat.Stat.extrema (ImageStat.Stat.ofHistogram ImageStat.oneBinHist) = [(7, 7)] := by
  refine ⟨?_, by decide, by decide⟩
  intro h k i n x hlen hik hnx
  have hext : (ImageStat.Stat.extrema (ImageStat.Stat.ofHistogram h)).getD i (255, 0) =
      ImageStat.minmax (h.drop (i * 256)) := by
    show ((ImageStat.chunkStarts h.length).map fun b => ImageStat.minmax (h.drop b)).getD i
        (255, 0) = _
    rw [hlen, ImageStat.chunkStarts_mul, List.map_map,
      ImageStat.getD_map_range _ k i (255, 0) hik]
    rfl
  have hinv := ImageStat.foldl_minmax_inv (fun t => h.getD (i * 256 + t) 0) 256 0 (by omega)
    (255, 0) (Or.inl ⟨fun t ht => absurd ht (by omega), rfl⟩)
  have hfin : ImageStat.extrInv (fun t => h.getD (i * 256 + t) 0) 256 (n, x) := by
    rw [← hnx, hext, ImageStat.minmax_eq_foldl h (i * 256), List.range_eq_range']
    simpa using hinv
  constructor
  · intro hall
    rcases hfin with ⟨_, hpe⟩ | ⟨h1, h2, _, _, _, _⟩
    · exact ⟨congrArg Prod.fst hpe, congrArg Prod.snd hpe⟩
    · exact absurd (hall n h2) h1
  · intro hex
    rcases hfin with ⟨hz, _⟩ | ⟨h1, h2, h3, h4, h5, h6⟩
    · rcases hex with ⟨t, ht, hnz⟩
      exact absurd (hz t ht) hnz
    · exact ⟨h1, h2, h3, h4, h5, h6⟩

theorem C7_extrema_witness :
    ((∀ t, t < 256 → ImageStat.oneBinHist.getD (0 * 256 + t) 0 = 0) →
        (7 : Nat) = 255 ∧ (7 : Nat) = 0) ∧
      ((∃ t, t < 256 ∧ ImageStat.oneBinHist.getD (0 * 256 + t) 0 ≠ 0) →
        ImageStat.oneBinHist.getD (0 * 256 + 7) 0 ≠ 0 ∧ (7 : Nat) < 256 ∧
        (∀ t, t < 7 → ImageStat.oneBinHist.getD (0 * 256 + t) 0 = 0) ∧
        ImageStat.oneBinHist.getD (0 * 256 + 7) 0 ≠ 0 ∧ (7 : Nat) < 256 ∧
        ∀ t, 7 < t → t < 256 → ImageStat.oneBinHist.getD (0 * 256 + t) 0 = 0) :=
  C7_extrema.1 ImageStat.oneBinHist 1 0 7 7 (by decide) (by decide) (by decide)

theorem C5_empty_channel_fails_witness :
    ImageStat.Stat.mean (ImageStat.Stat.ofHistogram (List.replicate 256 0)) =
        .error .emptyChannel ∧
      ImageStat.Stat.var (ImageStat.Stat.ofHistogram (List.replicate 256 0)) =
        .error .emptyChannel ∧
      ∀ sqrt : Rat → Rat,
        ImageStat.Stat.rmsWith sqrt (ImageStat.Stat.ofHistogram (List.replicate 256 0)) =
          .error .emptyChannel :=
  C5_empty_channel_fails (List.replicate 256 0) 1 0 (by decide) (by decide) (by decide)
